import Mathlib

/-!
Verification of the nclustgen materialization pipeline against its
natural-language specification.

The embedding covers:
* the dense and sparse materializers of `BiclusterGenerator` / `TriclusterGenerator`
  (`java_to_numpy`, `java_to_sparse`);
* the graph materializers (`dense_to_networkx`, `dense_to_dgl`);
* the specification builders (`build_background`, `build_patterns`,
  `build_structure`, `build_generator`);
* the by-config constructors (`BiclusterGeneratorbyConfig`,
  `TriclusterGeneratorbyConfig`).

The external generation engine (the Java G-Bic / G-Tric library), the
`Generator` base class and the `tensor_value_check` decoder are collaborators
whose sources are not part of the repository snapshot; they are modelled from
the specification, and each such definition carries a doc comment starting
with `Modelled from the spec:`.

Matrix values are modelled over the integers: every claim settled here is
about the bookkeeping of indices, chunks, shapes, edges and attributes, none
of which depends on the numeric value type.
-/

/-- A two-axis Matrix Result handle.  Modelled from the spec (section 6): the
engine exposes a row count, a column count and a row-range serialization; the
cell values are abstracted as an entry function (row, column to value). -/
structure BicResult where
  numRows : Nat
  numCols : Nat
  entry : Nat → Nat → Int

/-- A three-axis Matrix Result handle.  Modelled from the spec (section 6):
row, column and context counts plus the cell values, as an entry function
(context, row, column to value). -/
structure TricResult where
  numRows : Nat
  numCols : Nat
  numContexts : Nat
  entry : Nat → Nat → Nat → Int

/-- Modelled from the spec (section 4.2): `tensor_value_check` (in
`nclustgen/utils.py`, absent from `src/`) interprets one serialized token as a
numeric value; over an already numeric token stream it is the identity. -/
def tvc (v : Int) : Int := v

/-- Modelled from the spec (sections 4.4 and 6): the engine operation
`IOUtils.matrixToStringColOriented(dataset, count, step, ...)` serializes the
`step`-th block of `count` rows (the chunks partition the row range, so block
`step` starts at row `step * count`).  Each line starts with the row index,
followed by the row values; the text ends with a trailing empty line.  Lines
are modelled as lists of already-decoded values. -/
def bicMatrixToString (M : BicResult) (count step : Nat) : List (List Int) :=
  ((List.range count).map (fun i =>
    ((step * count + i : Nat) : Int) ::
      (List.range M.numCols).map (fun j => M.entry (step * count + i) j)))
  ++ [[]]

/-- `BiclusterGenerator.java_to_numpy` (BiclusterGen.py lines 149-154): one
full-range serialization; per line, drop the leading index column and decode
every token; drop the trailing empty line. -/
def bicJavaToNumpy (M : BicResult) : List (List Int) :=
  ((bicMatrixToString M M.numRows 0).map
    (fun row => (row.drop 1).map tvc)).dropLast

/-- `BiclusterGenerator.java_to_sparse` (BiclusterGen.py lines 156-170):
`threshold = int(numRows / 10)`; `steps = range(int(numRows / threshold))`
(a `ZeroDivisionError`, modelled as `none`, when `threshold = 0`); each step
decodes one `threshold`-row block into a csr matrix; `vstack` concatenates the
blocks along the row axis (the sparse representation is value-preserving, so
blocks are modelled by their dense row lists). -/
def bicJavaToSparse (M : BicResult) : Option (List (List Int)) :=
  let threshold := M.numRows / 10
  if threshold = 0 then none
  else some
    (((List.range (M.numRows / threshold)).map (fun step =>
      ((bicMatrixToString M threshold step).map
        (fun row => (row.drop 1).map tvc)).dropLast)).flatten)

/-- Modelled from the spec (section 6): the three-axis serialization packs all
contexts contiguously per row; line `i` is the row index followed by, for each
context `z`, the `numCols` values of row `i` in context `z`; trailing empty
line as in the two-axis case. -/
def tricMatrixToString (M : TricResult) (count step : Nat) : List (List Int) :=
  ((List.range count).map (fun i =>
    ((step * count + i : Nat) : Int) ::
      ((List.range M.numContexts).map (fun z =>
        (List.range M.numCols).map (fun k => M.entry z (step * count + i) k))).flatten))
  ++ [[]]

/-- `numpy.array_split l n`: `n` parts; with `q = l.length / n` and
`r = l.length % n`, the first `r` parts have `q + 1` elements and the rest
have `q` elements. -/
def arraySplit (l : List Int) (n : Nat) : List (List Int) :=
  let q := l.length / n
  let r := l.length % n
  (List.range n).map (fun i =>
    (l.drop (i * q + min i r)).take (if i < r then q + 1 else q))

/-- `numpy.reshape` of a rank-3 nested list to shape `(d0, d1, d2)`: flatten
in row-major order and refill in row-major order; numpy raises when the total
size does not match, modelled as `none`. -/
def reshape3 (t : List (List (List Int))) (d0 d1 d2 : Nat) :
    Option (List (List (List Int))) :=
  let flat := (t.flatten).flatten
  if flat.length = d0 * d1 * d2 then
    some ((List.range d0).map (fun a =>
      (List.range d1).map (fun b =>
        (List.range d2).map (fun c => flat.getD (a * d1 * d2 + b * d2 + c) 0))))
  else none

/-- `TriclusterGenerator.java_to_numpy` (TriclusterGen.py lines 98-110): one
full-range serialization; per line, drop the index column, decode, and
`np.array_split` into `numContexts` segments; drop the trailing line; then
`reshape` the resulting `(rows, contexts, cols)` array to
`(contexts, rows, cols)`. -/
def triJavaToNumpy (M : TricResult) : Option (List (List (List Int))) :=
  reshape3
    (((tricMatrixToString M M.numRows 0).map
      (fun row => arraySplit ((row.drop 1).map tvc) M.numContexts)).dropLast)
    M.numContexts M.numRows M.numCols

/-- `TriclusterGenerator.java_to_sparse` (TriclusterGen.py lines 112-131):
same `threshold` and `steps` computation as the two-axis case (division by
zero modelled as `none`); each block is split per row into `numContexts`
segments, reshaped to `(contexts, threshold, cols)`, and the blocks are
concatenated along axis 1 (the row axis). -/
def triJavaToSparse (M : TricResult) : Option (List (List (List Int))) :=
  let threshold := M.numRows / 10
  if threshold = 0 then none
  else
    ((List.range (M.numRows / threshold)).mapM (fun step =>
      reshape3
        (((tricMatrixToString M threshold step).map
          (fun row => arraySplit ((row.drop 1).map tvc) M.numContexts)).dropLast)
        M.numContexts threshold M.numCols)).map
      (fun chunks =>
        (List.range M.numContexts).map (fun z =>
          (chunks.map (fun ch => ch.getD z [])).flatten))

/-- Modelled from the spec (section 4.3): the three-axis dense materializer as
the specification words it, for refinement comparison: split each decoded row
into `numContexts` equal segments and transpose the `(rows, contexts, cols)`
array into `(contexts, rows, cols)`, so that entry `(z, i, j)` is the `j`-th
value of the `z`-th segment of decoded row `i`. -/
def triDenseSpec (M : TricResult) : List (List (List Int)) :=
  let split :=
    ((tricMatrixToString M M.numRows 0).map
      (fun row => arraySplit ((row.drop 1).map tvc) M.numContexts)).dropLast
  (List.range M.numContexts).map (fun z =>
    (List.range M.numRows).map (fun i => (split.getD i []).getD z []))

/-- A 21-row, 1-column Matrix Result whose row `i` holds the value `i`:
`threshold = 2` and the 10 requested chunks cover only rows 0 to 19. -/
def bicM21 : BicResult := ⟨21, 1, fun i _ => (i : Int)⟩

/-- A 25-row, 1-column Matrix Result: `threshold = 2`, 12 chunks, rows 0 to 23
covered, row 24 never requested. -/
def bicM25 : BicResult := ⟨25, 1, fun i _ => (i : Int)⟩

/-- A 5-row Matrix Result: `threshold = int(5 / 10) = 0`. -/
def bicM5 : BicResult := ⟨5, 3, fun i j => (i + j : Int)⟩

/-- A 5-row three-axis Matrix Result: `threshold = 0`. -/
def tricM5 : TricResult := ⟨5, 2, 2, fun _ _ _ => 0⟩

/-- A 2-context, 2-row, 1-column Matrix Result with pairwise distinct values:
serialized line 0 is `[1, 2]` and line 1 is `[3, 4]` (after the index column),
so segment `z` of decoded row `i` is `[2 * i + z + 1]`. -/
def tricM221 : TricResult := ⟨2, 1, 2, fun z r _ => (2 * r + z + 1 : Int)⟩

/-- C1: the dense and the densified sparse materialization of the same Matrix
Result are not value-equal at every multi-index when the row count is not a
multiple of the chunk size: for a 21-row result the chunk size is 2, the code
requests 10 two-row chunks, and the sparse result holds only rows 0 to 19
while the dense result holds all 21 rows. -/
theorem C1_dense_sparse_diverge :
    bicJavaToNumpy bicM21 = (List.range 21).map (fun i => [(i : Int)])
    ∧ bicJavaToSparse bicM21 = some ((List.range 20).map (fun i => [(i : Int)]))
    ∧ ¬ bicJavaToSparse bicM21 = some (bicJavaToNumpy bicM21) := by
  refine ⟨by decide, by decide, by decide⟩

/-- C2: chunk concatenation does not cover every row when the chunk size does
not divide the row count: for a 25-row result the chunk size is 2, the code
requests `int(25 / 2) = 12` chunks, and the concatenated sparse result is
exactly rows 0 to 23 in order, so row 24 is never covered. -/
theorem C2_chunks_drop_final_rows :
    bicJavaToSparse bicM25 = some ((List.range 24).map (fun i => [(i : Int)]))
    ∧ ((List.range 24).map (fun i => [(i : Int)])).length ≠ bicM25.numRows := by
  refine ⟨by decide, by decide⟩

/-- C3: for a Matrix Result with fewer than 10 rows the chunk size
`int(rows / 10)` is 0 and `int(rows / threshold)` raises a
`ZeroDivisionError` (modelled as `none`) instead of clamping the chunk size
to 1, in both the two-axis and the three-axis sparse materializer. -/
theorem C3_small_rows_division_error :
    bicJavaToSparse bicM5 = none ∧ triJavaToSparse tricM5 = none := by
  refine ⟨by decide, by decide⟩

/-- C4: the three-axis dense materializer reshapes the `(rows, contexts,
cols)` split array instead of transposing it: on a 2-context, 2-row, 1-column
result with decoded rows `[1, 2]` and `[3, 4]` the code returns
`[[[1], [2]], [[3], [4]]]`, whereas the claimed semantics (entry `(z, i, j)`
equals the `j`-th value of the `z`-th segment of decoded row `i`) gives
`[[[1], [3]], [[2], [4]]]`; in particular the code entry at `(0, 1, 0)` is 2
while the `0`-th segment of decoded row 1 is `[3]`. -/
theorem C4_reshape_is_not_transpose :
    triJavaToNumpy tricM221 = some [[[1], [2]], [[3], [4]]]
    ∧ triDenseSpec tricM221 = [[[1], [3]], [[2], [4]]]
    ∧ ¬ triJavaToNumpy tricM221 = some (triDenseSpec tricM221) := by
  refine ⟨by decide, by decide, by decide⟩

/-- A value of the bridged engine runtime, as far as the builders manipulate
one: a plain string, a number, or an engine enumerator (`getattr` of an enum
class), recorded by class name and member name. -/
inductive JVal
  | jstr (s : String)
  | jnum (n : Int)
  | jenum (cls name : String)
deriving DecidableEq

/-- Python `str(v)` for the modelled values. -/
def jvalStr : JVal → String
  | JVal.jstr s => s
  | JVal.jnum n => toString n
  | JVal.jenum cls name => cls ++ "." ++ name

/-- Python truthiness for the modelled values: the empty string and the number
0 are falsy, everything else is truthy. -/
def jvalTruthy : JVal → Bool
  | JVal.jstr s => !(s == "")
  | JVal.jnum n => !(n == 0)
  | JVal.jenum _ _ => true

/-- The generator fields read or written by the specification builders
(`self.background`, `self.time_profile`, `self.contiguity`, `self.dstype`,
`self.patterns`, `self.clusterdistribution`); a cluster-size distribution is a
distribution name with its numeric parameters. -/
structure BuilderState where
  background : List JVal
  time_profile : Option JVal
  contiguity : String
  dstype : String
  patterns : List (List String)
  clusterdistribution : List (String × Int × Int)
deriving DecidableEq

/-- The engine structure object built by `build_structure`: per-axis
size-distribution settings plus the contiguity enumerator that was set
(engine enumerators are recorded by their member name). -/
structure BicStructureObj where
  rowsSettings : String × Int × Int
  colsSettings : String × Int × Int
  contiguity : String
deriving DecidableEq

/-- `BiclusterGenerator.build_background` (BiclusterGen.py lines 89-96):
`self.background[0] = getattr(BackgroundType, self.background[0])`, where
`getattr` with a non-string member name raises a `TypeError` that the code
catches and ignores; returns `Background(*self.background)`, modelled as the
argument list.  The pair is (state after the call, built object). -/
def bicBuildBackground (st : BuilderState) : BuilderState × List JVal :=
  let bg :=
    match st.background with
    | JVal.jstr s :: rest => JVal.jenum "BackgroundType" s :: rest
    | other => other
  ({ st with background := bg }, bg)

/-- `BiclusterGenerator.build_patterns` (BiclusterGen.py lines 104-118): when
`self.time_profile` is truthy it is replaced by
`getattr(TimeProfile, str(self.time_profile).upper())`; one pattern object per
configured pattern tuple, carrying the dataset type, the per-axis pattern
types and the (possibly rewritten) time profile. -/
def bicBuildPatterns (st : BuilderState) :
    BuilderState × List (String × List String × Option JVal) :=
  let tp :=
    match st.time_profile with
    | none => none
    | some v =>
        if jvalTruthy v then some (JVal.jenum "TimeProfile" (jvalStr v).toUpper)
        else some v
  ({ st with time_profile := tp },
   st.patterns.map (fun pattern => (st.dstype, pattern, tp)))

/-- `BiclusterGenerator.build_structure` (BiclusterGen.py lines 120-135): the
rows and columns settings come from `self.clusterdistribution[0]` and `[1]`;
when `self.contiguity == 'CONTEXTS'` the field is rewritten to `'NONE'`
before `setContiguity(getattr(Contiguity, self.contiguity))`. -/
def bicBuildStructure (st : BuilderState) : BuilderState × BicStructureObj :=
  let contiguity := if st.contiguity = "CONTEXTS" then "NONE" else st.contiguity
  ({ st with contiguity := contiguity },
   { rowsSettings := st.clusterdistribution.getD 0 ("", 0, 0)
     colsSettings := st.clusterdistribution.getD 1 ("", 0, 0)
     contiguity := contiguity })

/-- `BiclusterGenerator.build_generator` (BiclusterGen.py lines 98-102):
`del params[contexts_index]` mutates the caller-supplied parameter list, then
the engine generator class named `class_call` is instantiated on the remaining
parameters.  The pair is (parameter list after the call, built object as class
name with arguments). -/
def bicBuildGenerator (class_call : String) (params : List JVal)
    (contexts_index : Nat) : List JVal × (String × List JVal) :=
  let params' := params.eraseIdx contexts_index
  (params', (class_call, params'))

/-- `TriclusterGenerator.build_patterns` (TriclusterGen.py lines 56-67): same
`time_profile` rewriting as the two-axis builder; the pattern objects carry no
dataset type. -/
def triBuildPatterns (st : BuilderState) :
    BuilderState × List (List String × Option JVal) :=
  let tp :=
    match st.time_profile with
    | none => none
    | some v =>
        if jvalTruthy v then some (JVal.jenum "TimeProfile" (jvalStr v).toUpper)
        else some v
  ({ st with time_profile := tp },
   st.patterns.map (fun pattern => (pattern, tp)))

/-- `TriclusterGenerator.build_generator` (TriclusterGen.py lines 52-54): no
deletion; the parameter list is passed through unchanged. -/
def triBuildGenerator (class_call : String) (params : List JVal)
    (contexts_index : Nat) : List JVal × (String × List JVal) :=
  (params, (class_call, params))

/-- C7: the two-axis structure builder normalizes the contiguity value
`CONTEXTS` to `NONE` before constructing the engine structure object, and
passes any other contiguity value through unchanged. -/
theorem C7_contexts_normalized (st : BuilderState) :
    (st.contiguity = "CONTEXTS" → (bicBuildStructure st).2.contiguity = "NONE")
    ∧ (st.contiguity ≠ "CONTEXTS" →
        (bicBuildStructure st).2.contiguity = st.contiguity) := by
  constructor
  · intro h
    simp [bicBuildStructure, h]
  · intro h
    simp [bicBuildStructure, h]

/-- A concrete builder state with contiguity `CONTEXTS`. -/
def stCtx : BuilderState :=
  { background := [JVal.jstr "UNIFORM"]
    time_profile := some (JVal.jstr "random")
    contiguity := "CONTEXTS"
    dstype := "NUMERIC"
    patterns := [["CONSTANT", "CONSTANT"]]
    clusterdistribution := [("UNIFORM", 4, 4), ("UNIFORM", 4, 4)] }

/-- C7 witness: on a concrete state with contiguity `CONTEXTS` the built
structure object carries contiguity `NONE`. -/
theorem C7_contexts_normalized_witness :
    stCtx.contiguity = "CONTEXTS"
    ∧ (bicBuildStructure stCtx).2.contiguity = "NONE" :=
  ⟨by decide, (C7_contexts_normalized stCtx).1 (by decide)⟩

/-- C8 counterexample: the builder operations are not free of side effects on
the generator fields: on a concrete state with contiguity `CONTEXTS`,
`build_structure` leaves the state changed (the contiguity field is rewritten
to `NONE`). -/
theorem C8_builders_mutate_state :
    ¬ (bicBuildStructure stCtx).1 = stCtx := by decide

/-- C8 amended: the builder calls have exactly these effects on the generator
fields and the caller-supplied parameter list, and no others:
`build_background` replaces a leading string background entry by its
enumerator (other fields unchanged); `build_patterns` (both axes) replaces a
truthy time profile by its upper-cased enumerator (other fields unchanged);
the two-axis `build_structure` rewrites contiguity `CONTEXTS` to `NONE` and
otherwise keeps it (other fields unchanged); the two-axis `build_generator`
removes the contexts entry from the caller-supplied parameter list, while the
three-axis one leaves it unchanged. -/
theorem C8_builder_effects (st : BuilderState) (class_call : String)
    (params : List JVal) (contexts_index : Nat) :
    (bicBuildBackground st).1 =
      { st with background :=
          match st.background with
          | JVal.jstr s :: rest => JVal.jenum "BackgroundType" s :: rest
          | other => other }
    ∧ (bicBuildPatterns st).1 =
      { st with time_profile :=
          match st.time_profile with
          | none => none
          | some v =>
              if jvalTruthy v then
                some (JVal.jenum "TimeProfile" (jvalStr v).toUpper)
              else some v }
    ∧ (triBuildPatterns st).1 = (bicBuildPatterns st).1
    ∧ (bicBuildStructure st).1 =
      { st with contiguity :=
          if st.contiguity = "CONTEXTS" then "NONE" else st.contiguity }
    ∧ (bicBuildGenerator class_call params contexts_index).1 =
      params.eraseIdx contexts_index
    ∧ (triBuildGenerator class_call params contexts_index).1 = params := by
  refine ⟨rfl, rfl, rfl, rfl, rfl, rfl⟩

/-- Modelled from the spec (section 3, Configuration): `Generator.__init__`
(`nclustgen/Generator.py`, absent from `src/`) builds the complete validated
parameter state from the keyword arguments: every configuration field is
assigned, taking the supplied value when the keyword is present and the
documented default otherwise.  The state is modelled as the field list of
(name, value) pairs in the fixed field order given by `defaults`; a prior
state is irrelevant because every field is reassigned. -/
def generatorInit (defaults kwargs : List (String × JVal)) :
    List (String × JVal) :=
  defaults.map (fun p => (p.1, (List.lookup p.1 kwargs).getD p.2))

/-- `BiclusterGeneratorbyConfig.__init__` (BiclusterGen.py lines 265-282):
when a configuration file is given its parameters are loaded (file loading is
modelled as the already-parsed keyword list) and passed to the parent
constructor; otherwise the parent constructor is called without arguments. -/
def biclusterByConfig (defaults : List (String × JVal))
    (file_params : Option (List (String × JVal))) : List (String × JVal) :=
  match file_params with
  | some params => generatorInit defaults params
  | none => generatorInit defaults []

/-- `TriclusterGeneratorbyConfig.__init__` (TriclusterGen.py lines 206-216):
when a configuration file is given its parameters are passed to the parent
constructor, but a second, unconditional parent-constructor call with no
arguments follows and reassigns every field; without a file only the
no-argument call runs. -/
def triclusterByConfig (defaults : List (String × JVal))
    (file_params : Option (List (String × JVal))) : List (String × JVal) :=
  match file_params with
  | some params =>
      let _fromFile := generatorInit defaults params
      generatorInit defaults []
  | none => generatorInit defaults []

/-- C10: for every parameter list loaded from a configuration file, the
three-axis by-config constructor ends in the same parameter state as the
constructor called with no file, because the unconditional second parent
constructor call reassigns every field from the defaults; the two-axis
by-config constructor, in contrast, keeps the parameters of the file. -/
theorem C10_tri_config_overridden (defaults params : List (String × JVal)) :
    triclusterByConfig defaults (some params) = triclusterByConfig defaults none
    ∧ biclusterByConfig defaults (some params) = generatorInit defaults params := by
  refine ⟨rfl, rfl⟩

/-- A graph node of the materialized heterogeneous graph: the string names
`row-i`, `col-j`, `ctx-z` of the source, by constructor. -/
inductive Node
  | row (i : Nat)
  | col (j : Nat)
  | ctx (z : Nat)
deriving DecidableEq

/-- A dense two-axis tensor: shape `(rows, cols)` plus the cell values. -/
structure Mat2 where
  rows : Nat
  cols : Nat
  entry : Nat → Nat → Int

/-- A dense three-axis tensor: shape `(contexts, rows, cols)` plus the cell
values, `entry z i j` being the cell at context `z`, row `i`, column `j`. -/
structure Mat3 where
  contexts : Nat
  rows : Nat
  cols : Nat
  entry : Nat → Nat → Nat → Int

/-- A weighted edge of the generic (networkx) graph: an endpoint pair plus
the weight. -/
abbrev NXEdge := (Node × Node) × Int

/-- networkx edge identity: an undirected graph keys an edge by its endpoint
pair up to orientation. -/
def keyEqb (p q : Node × Node) : Bool :=
  (p == q) || (p.1 == q.2 && p.2 == q.1)

/-- One step of `networkx.Graph.add_weighted_edges_from` on a simple graph:
inserting an edge whose endpoint pair is already present only overwrites the
weight; otherwise the edge is appended. -/
def insWEdge (acc : List NXEdge) (e : NXEdge) : List NXEdge :=
  if acc.any (fun d => keyEqb d.1 e.1) then
    acc.map (fun d => if keyEqb d.1 e.1 then (d.1, e.2) else d)
  else acc ++ [e]

/-- `networkx.Graph.add_weighted_edges_from`: fold the insertion step over the
supplied edge list. -/
def addWeightedEdgesFrom (G : List NXEdge) (es : List NXEdge) : List NXEdge :=
  es.foldl insWEdge G

/-- The generic (networkx) graph produced by `dense_to_networkx`: the node
list carries per node the `cluster` attribute and the `bipartide` attribute;
the edge list is the simple weighted edge set. -/
structure NXGraph where
  nodes : List (Node × Int × Nat)
  edges : List NXEdge

/-- The edge list comprehension of `BiclusterGenerator.dense_to_networkx`
(BiclusterGen.py lines 210-213): one `(row-i, col-j, elem)` triple per cell,
iterating rows then columns. -/
def bicEdgeList (x : Mat2) : List NXEdge :=
  (List.range x.rows).flatMap (fun i =>
    (List.range x.cols).map (fun j => ((Node.row i, Node.col j), x.entry i j)))

/-- `BiclusterGenerator.dense_to_networkx` (BiclusterGen.py lines 200-215):
`rows` nodes of type row (bipartide 0) and `cols` nodes of type col
(bipartide 1), every node with cluster attribute 0; one weighted edge per
cell. -/
def bicDenseToNetworkx (x : Mat2) : NXGraph :=
  { nodes :=
      ((List.range x.rows).map (fun i => (Node.row i, (0 : Int), 0)))
      ++ ((List.range x.cols).map (fun j => (Node.col j, (0 : Int), 1)))
    edges := addWeightedEdgesFrom [] (bicEdgeList x) }

/-- The flattened edge list of `TriclusterGenerator.dense_to_networkx`
(TriclusterGen.py lines 176-184): per cell `(z, i, j)` the three triples
`(row-i, col-j, elem)`, `(row-i, ctx-z, elem)`, `(col-j, ctx-z, elem)`, in
context-row-column iteration order. -/
def triEdgeList (x : Mat3) : List NXEdge :=
  (List.range x.contexts).flatMap (fun z =>
    (List.range x.rows).flatMap (fun i =>
      (List.range x.cols).flatMap (fun j =>
        [((Node.row i, Node.col j), x.entry z i j),
         ((Node.row i, Node.ctx z), x.entry z i j),
         ((Node.col j, Node.ctx z), x.entry z i j)])))

/-- `TriclusterGenerator.dense_to_networkx` (TriclusterGen.py lines 166-188):
`contexts` ctx nodes (bipartide 0), `rows` row nodes (bipartide 1), `cols`
col nodes (bipartide 2), every node with cluster attribute 0; the flattened
per-cell edge triples are added to the simple graph. -/
def triDenseToNetworkx (x : Mat3) : NXGraph :=
  { nodes :=
      ((List.range x.contexts).map (fun z => (Node.ctx z, (0 : Int), 0)))
      ++ ((List.range x.rows).map (fun i => (Node.row i, (0 : Int), 1)))
      ++ ((List.range x.cols).map (fun j => (Node.col j, (0 : Int), 2)))
    edges := addWeightedEdgesFrom [] (triEdgeList x) }

/-- The tensor-graph (dgl heterograph) built by
`BiclusterGenerator.dense_to_dgl` (BiclusterGen.py lines 172-198): the
`(row, elem, col)` edge type holds one `(i, j)` edge per cell; the edge
weights; the per-type node cluster data `th.zeros(shape)`. -/
structure DGLGraph2 where
  rcEdges : List (Nat × Nat)
  weights : List Int
  rowClusterData : List Int
  colClusterData : List Int

/-- `BiclusterGenerator.dense_to_dgl`: the `[i, j, elem]` triple per cell in
row-column order gives the `(u, v)` lists and the weights; cluster data is a
zero vector per node type. -/
def bicDenseToDgl (x : Mat2) : DGLGraph2 :=
  { rcEdges :=
      (List.range x.rows).flatMap (fun i =>
        (List.range x.cols).map (fun j => (i, j)))
    weights :=
      (List.range x.rows).flatMap (fun i =>
        (List.range x.cols).map (fun j => x.entry i j))
    rowClusterData := List.replicate x.rows 0
    colClusterData := List.replicate x.cols 0 }

/-- The tensor-graph built by `TriclusterGenerator.dense_to_dgl`
(TriclusterGen.py lines 133-164): three edge types `(row, elem, col)`,
`(row, elem, ctx)`, `(col, elem, ctx)`, each with one edge per cell; the same
weight vector on each type; zero cluster data per node type. -/
structure DGLGraph3 where
  rcEdges : List (Nat × Nat)
  rzEdges : List (Nat × Nat)
  czEdges : List (Nat × Nat)
  weights : List Int
  rowClusterData : List Int
  colClusterData : List Int
  ctxClusterData : List Int

/-- The `[i, j, z, elem]` quadruple per cell of
`TriclusterGenerator.dense_to_dgl`, in context-row-column iteration order. -/
def triCellList (x : Mat3) : List (Nat × Nat × Nat × Int) :=
  (List.range x.contexts).flatMap (fun z =>
    (List.range x.rows).flatMap (fun i =>
      (List.range x.cols).map (fun j => (i, j, z, x.entry z i j))))

/-- `TriclusterGenerator.dense_to_dgl`: the three `(u, v)` list pairs are the
column slices of the cell quadruples; every type carries the same weights;
cluster data is `th.zeros` of `x.shape[1]`, `x.shape[2]`, `x.shape[0]`. -/
def triDenseToDgl (x : Mat3) : DGLGraph3 :=
  { rcEdges := (triCellList x).map (fun c => (c.1, c.2.1))
    rzEdges := (triCellList x).map (fun c => (c.1, c.2.2.1))
    czEdges := (triCellList x).map (fun c => (c.2.1, c.2.2.1))
    weights := (triCellList x).map (fun c => c.2.2.2)
    rowClusterData := List.replicate x.rows 0
    colClusterData := List.replicate x.cols 0
    ctxClusterData := List.replicate x.contexts 0 }

/-- A concrete 2-context, 2-row, 2-column dense tensor with pairwise distinct
values. -/
def mat3cex : Mat3 := ⟨2, 2, 2, fun z i j => (4 * z + 2 * i + j + 1 : Int)⟩

/-- A concrete 2-row, 3-column dense tensor. -/
def mat2w : Mat2 := ⟨2, 3, fun i j => (3 * i + j + 1 : Int)⟩

/-- The Scenario C shape: contexts 3, rows 10, columns 8. -/
def mat3s : Mat3 := ⟨3, 10, 8, fun z i j => (z + i + j : Int)⟩

/-- C5 counterexample: on a `(2, 2, 2)` dense tensor the generic (networkx)
graph has 12 edges, not `3 * rows * cols * contexts = 24`: the graph is
simple, so the three edges of a cell collide with those of other cells across
the third axis. -/
theorem C5_counterexample :
    ¬ ((triDenseToNetworkx mat3cex).edges.length = 3 * 2 * 2 * 2) := by decide

/-- C6 counterexample: on a `(2, 2, 2)` dense tensor the tensor-graph (dgl)
backend has 8 edges of type `(row, elem, col)` - one per cell - and not
`rows * cols = 4`, the product of its endpoint-type partition sizes. -/
theorem C6_counterexample :
    ¬ ((triDenseToDgl mat3cex).rcEdges.length = 2 * 2) := by decide

/-- The node-type rank used to orient edge keys: row 0, col 1, ctx 2. -/
def ntag : Node → Nat
  | Node.row _ => 0
  | Node.col _ => 1
  | Node.ctx _ => 2

/-- An edge key whose endpoint types are in strictly increasing rank order;
every key the materializers insert has this shape. -/
def AscKey (k : Node × Node) : Prop := ntag k.1 < ntag k.2

lemma keyEqb_iff_of_asc {p q : Node × Node} (hp : AscKey p) (hq : AscKey q) :
    keyEqb p q = true ↔ p = q := by
  unfold keyEqb
  simp only [Bool.or_eq_true, Bool.and_eq_true, beq_iff_eq]
  constructor
  · rintro (h | ⟨h1, h2⟩)
    · exact h
    · exfalso
      unfold AscKey at hp hq
      rw [h1, h2] at hp
      omega
  · intro h
    exact Or.inl h

/-- Key insertion on the deduplicated key list: the key-level image of one
weighted-edge insertion. -/
def insKey (s : List (Node × Node)) (k : Node × Node) : List (Node × Node) :=
  if s.any (fun d => keyEqb d k) then s else s ++ [k]

lemma any_map_fst (acc : List NXEdge) (q : Node × Node → Bool) :
    (acc.map Prod.fst).any q = acc.any (fun d => q d.1) := by
  induction acc with
  | nil => rfl
  | cons e acc ih => simp [List.any_cons, ih]

lemma map_fst_insWEdge (acc : List NXEdge) (e : NXEdge) :
    (insWEdge acc e).map Prod.fst = insKey (acc.map Prod.fst) e.1 := by
  have hc : (acc.map Prod.fst).any (fun d => keyEqb d e.1)
      = acc.any (fun d => keyEqb d.1 e.1) :=
    any_map_fst acc (fun d => keyEqb d e.1)
  by_cases h : acc.any (fun d => keyEqb d.1 e.1) = true
  · rw [insWEdge, insKey, if_pos h, if_pos (by rw [hc]; exact h), List.map_map]
    have hfst : (Prod.fst ∘ fun d : NXEdge =>
        if keyEqb d.1 e.1 then (d.1, e.2) else d) = Prod.fst := by
      funext d
      by_cases hd : keyEqb d.1 e.1 = true
      · simp [Function.comp, hd]
      · simp [Function.comp, hd]
    rw [hfst]
  · rw [insWEdge, insKey, if_neg h, if_neg (by rw [hc]; exact h), List.map_append]
    rfl

lemma map_fst_addWeightedEdgesFrom (es : List NXEdge) : ∀ G : List NXEdge,
    (addWeightedEdgesFrom G es).map Prod.fst
    = (es.map Prod.fst).foldl insKey (G.map Prod.fst) := by
  induction es with
  | nil => intro G; rfl
  | cons e es ih =>
      intro G
      have h1 : addWeightedEdgesFrom G (e :: es)
          = addWeightedEdgesFrom (insWEdge G e) es := rfl
      rw [h1, ih (insWEdge G e), map_fst_insWEdge]
      rfl

lemma insKey_of_asc (s : List (Node × Node)) (k : Node × Node)
    (hs : ∀ d ∈ s, AscKey d) (hk : AscKey k) :
    insKey s k = if k ∈ s then s else s ++ [k] := by
  by_cases h : k ∈ s
  · have hany : s.any (fun d => keyEqb d k) = true :=
      List.any_eq_true.mpr ⟨k, h, (keyEqb_iff_of_asc hk hk).mpr rfl⟩
    rw [insKey, if_pos hany, if_pos h]
  · have hany : ¬ s.any (fun d => keyEqb d k) = true := by
      intro hc
      rcases List.any_eq_true.mp hc with ⟨d, hd, hdk⟩
      exact h (((keyEqb_iff_of_asc (hs d hd) hk).mp hdk) ▸ hd)
    rw [insKey, if_neg hany, if_neg h]

lemma foldl_insKey_spec (l : List (Node × Node)) : ∀ s : List (Node × Node),
    (∀ d ∈ s, AscKey d) → (∀ d ∈ l, AscKey d) → s.Nodup →
    ((l.foldl insKey s).Nodup
      ∧ (∀ d ∈ l.foldl insKey s, AscKey d)
      ∧ (l.foldl insKey s).toFinset = s.toFinset ∪ l.toFinset) := by
  induction l with
  | nil =>
      intro s hs _ hnd
      exact ⟨hnd, hs, by simp⟩
  | cons k l ih =>
      intro s hs hl hnd
      have hk : AscKey k := hl k (by simp)
      have hl' : ∀ d ∈ l, AscKey d := fun d hd => hl d (by simp [hd])
      rw [List.foldl_cons, insKey_of_asc s k hs hk]
      by_cases h : k ∈ s
      · rw [if_pos h]
        obtain ⟨h1, h2, h3⟩ := ih s hs hl' hnd
        refine ⟨h1, h2, ?_⟩
        rw [h3]
        ext a
        simp only [Finset.mem_union, List.mem_toFinset, List.mem_cons]
        constructor
        · rintro (ha | ha)
          · exact Or.inl ha
          · exact Or.inr (Or.inr ha)
        · rintro (ha | ha | ha)
          · exact Or.inl ha
          · exact Or.inl (ha ▸ h)
          · exact Or.inr ha
      · rw [if_neg h]
        have hs' : ∀ d ∈ s ++ [k], AscKey d := by
          intro d hd
          rcases List.mem_append.mp hd with h' | h'
          · exact hs d h'
          · rw [List.mem_singleton.mp h']
            exact hk
        have hnd' : (s ++ [k]).Nodup := by
          refine List.Nodup.append hnd (List.nodup_singleton k) ?_
          intro a ha hak
          exact h ((List.mem_singleton.mp hak) ▸ ha)
        obtain ⟨h1, h2, h3⟩ := ih (s ++ [k]) hs' hl' hnd'
        refine ⟨h1, h2, ?_⟩
        rw [h3, List.toFinset_append]
        ext a
        simp only [Finset.mem_union, List.mem_toFinset, List.mem_cons,
          List.not_mem_nil, or_false]
        tauto

lemma nx_edges_length (es : List NXEdge) (h : ∀ e ∈ es, AscKey e.1) :
    (addWeightedEdgesFrom [] es).length = ((es.map Prod.fst).toFinset).card := by
  have hmap : ∀ d ∈ es.map Prod.fst, AscKey d := by
    intro d hd
    rcases List.mem_map.mp hd with ⟨e, he, rfl⟩
    exact h e he
  obtain ⟨h1, _, h3⟩ :=
    foldl_insKey_spec (es.map Prod.fst) [] (by simp) hmap List.nodup_nil
  have hlen : (addWeightedEdgesFrom [] es).length
      = ((addWeightedEdgesFrom [] es).map Prod.fst).length :=
    (List.length_map _ _).symm
  rw [hlen, map_fst_addWeightedEdgesFrom]
  have hnil : (([] : List NXEdge).map Prod.fst) = [] := rfl
  rw [hnil]
  rw [← List.toFinset_card_of_nodup h1, h3]
  simp

lemma nx_edges_countP (es : List NXEdge) (h : ∀ e ∈ es, AscKey e.1)
    (p : Node × Node → Bool) :
    ((addWeightedEdgesFrom [] es).countP (fun e => p e.1))
    = (((es.map Prod.fst).toFinset).filter (fun k => p k = true)).card := by
  have hmap : ∀ d ∈ es.map Prod.fst, AscKey d := by
    intro d hd
    rcases List.mem_map.mp hd with ⟨e, he, rfl⟩
    exact h e he
  obtain ⟨h1, _, h3⟩ :=
    foldl_insKey_spec (es.map Prod.fst) [] (by simp) hmap List.nodup_nil
  have hcnt : ((addWeightedEdgesFrom [] es).countP (fun e => p e.1))
      = ((addWeightedEdgesFrom [] es).map Prod.fst).countP p := by
    rw [List.countP_map]
    rfl
  rw [hcnt, map_fst_addWeightedEdgesFrom]
  have hnil : (([] : List NXEdge).map Prod.fst) = [] := rfl
  rw [hnil]
  rw [List.countP_eq_length_filter]
  have hndf := List.Nodup.filter p h1
  rw [← List.toFinset_card_of_nodup hndf, List.toFinset_filter, h3]
  simp

/-- The row-col edge keys of an `R` by `K` cell grid. -/
def rcKeys (R K : Nat) : Finset (Node × Node) :=
  ((Finset.range R) ×ˢ (Finset.range K)).image
    (fun q => (Node.row q.1, Node.col q.2))

/-- The row-ctx edge keys of an `R` by `C` grid. -/
def rzKeys (R C : Nat) : Finset (Node × Node) :=
  ((Finset.range R) ×ˢ (Finset.range C)).image
    (fun q => (Node.row q.1, Node.ctx q.2))

/-- The col-ctx edge keys of a `K` by `C` grid. -/
def czKeys (K C : Nat) : Finset (Node × Node) :=
  ((Finset.range K) ×ˢ (Finset.range C)).image
    (fun q => (Node.col q.1, Node.ctx q.2))

lemma rcKeys_card (R K : Nat) : (rcKeys R K).card = R * K := by
  have hinj : Function.Injective
      (fun q : Nat × Nat => ((Node.row q.1, Node.col q.2) : Node × Node)) := by
    intro a b hab
    obtain ⟨a1, a2⟩ := a
    obtain ⟨b1, b2⟩ := b
    simp only [Prod.mk.injEq, Node.row.injEq, Node.col.injEq] at hab
    exact Prod.ext hab.1 hab.2
  rw [rcKeys, Finset.card_image_of_injective _ hinj, Finset.card_product,
    Finset.card_range, Finset.card_range]

lemma rzKeys_card (R C : Nat) : (rzKeys R C).card = R * C := by
  have hinj : Function.Injective
      (fun q : Nat × Nat => ((Node.row q.1, Node.ctx q.2) : Node × Node)) := by
    intro a b hab
    obtain ⟨a1, a2⟩ := a
    obtain ⟨b1, b2⟩ := b
    simp only [Prod.mk.injEq, Node.row.injEq, Node.ctx.injEq] at hab
    exact Prod.ext hab.1 hab.2
  rw [rzKeys, Finset.card_image_of_injective _ hinj, Finset.card_product,
    Finset.card_range, Finset.card_range]

lemma czKeys_card (K C : Nat) : (czKeys K C).card = K * C := by
  have hinj : Function.Injective
      (fun q : Nat × Nat => ((Node.col q.1, Node.ctx q.2) : Node × Node)) := by
    intro a b hab
    obtain ⟨a1, a2⟩ := a
    obtain ⟨b1, b2⟩ := b
    simp only [Prod.mk.injEq, Node.col.injEq, Node.ctx.injEq] at hab
    exact Prod.ext hab.1 hab.2
  rw [czKeys, Finset.card_image_of_injective _ hinj, Finset.card_product,
    Finset.card_range, Finset.card_range]

lemma rc_rz_disjoint (R K C : Nat) : Disjoint (rcKeys R K) (rzKeys R C) := by
  rw [Finset.disjoint_left]
  intro k hk1 hk2
  simp only [rcKeys, rzKeys, Finset.mem_image] at hk1 hk2
  obtain ⟨a, _, rfl⟩ := hk1
  obtain ⟨b, _, hb⟩ := hk2
  simp [Prod.ext_iff] at hb

lemma rc_cz_disjoint (R K C : Nat) : Disjoint (rcKeys R K) (czKeys K C) := by
  rw [Finset.disjoint_left]
  intro k hk1 hk2
  simp only [rcKeys, czKeys, Finset.mem_image] at hk1 hk2
  obtain ⟨a, _, rfl⟩ := hk1
  obtain ⟨b, _, hb⟩ := hk2
  simp [Prod.ext_iff] at hb

lemma rz_cz_disjoint (R K C : Nat) : Disjoint (rzKeys R C) (czKeys K C) := by
  rw [Finset.disjoint_left]
  intro k hk1 hk2
  simp only [rzKeys, czKeys, Finset.mem_image] at hk1 hk2
  obtain ⟨a, _, rfl⟩ := hk1
  obtain ⟨b, _, hb⟩ := hk2
  simp [Prod.ext_iff] at hb

lemma bicEdgeList_asc (x : Mat2) : ∀ e ∈ bicEdgeList x, AscKey e.1 := by
  intro e he
  simp only [bicEdgeList, List.mem_flatMap, List.mem_map, List.mem_range] at he
  obtain ⟨i, _, j, _, rfl⟩ := he
  simp [AscKey, ntag]

lemma triEdgeList_asc (x : Mat3) : ∀ e ∈ triEdgeList x, AscKey e.1 := by
  intro e he
  simp only [triEdgeList, List.mem_flatMap, List.mem_range, List.mem_cons,
    List.not_mem_nil, or_false] at he
  obtain ⟨z, _, i, _, j, _, (rfl | rfl | rfl)⟩ := he
  · simp [AscKey, ntag]
  · simp [AscKey, ntag]
  · simp [AscKey, ntag]

lemma bicKeys_toFinset (x : Mat2) :
    ((bicEdgeList x).map Prod.fst).toFinset = rcKeys x.rows x.cols := by
  ext k
  simp only [bicEdgeList, rcKeys, List.mem_toFinset, List.map_flatMap,
    List.mem_flatMap, List.map_map, List.mem_map, List.mem_range,
    Finset.mem_image, Finset.mem_product, Finset.mem_range, Function.comp]
  constructor
  · rintro ⟨i, hi, j, hj, rfl⟩
    exact ⟨(i, j), ⟨hi, hj⟩, rfl⟩
  · rintro ⟨⟨i, j⟩, ⟨hi, hj⟩, rfl⟩
    exact ⟨i, hi, j, hj, rfl⟩

lemma triKeys_toFinset (x : Mat3) (hC : 0 < x.contexts) (hR : 0 < x.rows)
    (hK : 0 < x.cols) :
    ((triEdgeList x).map Prod.fst).toFinset
    = rcKeys x.rows x.cols ∪ rzKeys x.rows x.contexts
      ∪ czKeys x.cols x.contexts := by
  ext k
  simp only [triEdgeList, rcKeys, rzKeys, czKeys, List.mem_toFinset,
    List.map_flatMap, List.mem_flatMap, List.map_cons, List.map_nil,
    List.mem_range, List.mem_cons, List.not_mem_nil, or_false,
    Finset.mem_union, Finset.mem_image, Finset.mem_product, Finset.mem_range]
  constructor
  · rintro ⟨z, hz, i, hi, j, hj, (rfl | rfl | rfl)⟩
    · exact Or.inl (Or.inl ⟨(i, j), ⟨hi, hj⟩, rfl⟩)
    · exact Or.inl (Or.inr ⟨(i, z), ⟨hi, hz⟩, rfl⟩)
    · exact Or.inr ⟨(j, z), ⟨hj, hz⟩, rfl⟩
  · rintro ((⟨⟨i, j⟩, ⟨hi, hj⟩, rfl⟩ | ⟨⟨i, z⟩, ⟨hi, hz⟩, rfl⟩)
      | ⟨⟨j, z⟩, ⟨hj, hz⟩, rfl⟩)
    · exact ⟨0, hC, i, hi, j, hj, Or.inl rfl⟩
    · exact ⟨z, hz, i, hi, 0, hK, Or.inr (Or.inl rfl)⟩
    · exact ⟨z, hz, 0, hR, j, hj, Or.inr (Or.inr rfl)⟩

/-- The edge-type test for row-col edges, orientation-insensitive. -/
def isRCb : Node × Node → Bool
  | (Node.row _, Node.col _) => true
  | (Node.col _, Node.row _) => true
  | _ => false

/-- The edge-type test for row-ctx edges, orientation-insensitive. -/
def isRZb : Node × Node → Bool
  | (Node.row _, Node.ctx _) => true
  | (Node.ctx _, Node.row _) => true
  | _ => false

/-- The edge-type test for col-ctx edges, orientation-insensitive. -/
def isCZb : Node × Node → Bool
  | (Node.col _, Node.ctx _) => true
  | (Node.ctx _, Node.col _) => true
  | _ => false

/-- The node-type tests. -/
def isRowN : Node → Bool
  | Node.row _ => true
  | _ => false

def isColN : Node → Bool
  | Node.col _ => true
  | _ => false

def isCtxN : Node → Bool
  | Node.ctx _ => true
  | _ => false

lemma filter_rcKeys (R K : Nat) :
    (rcKeys R K).filter (fun k => isRCb k = true) = rcKeys R K := by
  refine Finset.filter_true_of_mem ?_
  intro k hk
  obtain ⟨a, _, rfl⟩ := Finset.mem_image.mp hk
  rfl

lemma triUnion_filter_rc (R K C : Nat) :
    ((rcKeys R K ∪ rzKeys R C ∪ czKeys K C).filter (fun k => isRCb k = true))
    = rcKeys R K := by
  ext k
  simp only [Finset.mem_filter, Finset.mem_union]
  constructor
  · rintro ⟨(hk | hk) | hk, hb⟩
    · exact hk
    · obtain ⟨a, _, rfl⟩ := Finset.mem_image.mp hk
      exact absurd hb (by simp [isRCb])
    · obtain ⟨a, _, rfl⟩ := Finset.mem_image.mp hk
      exact absurd hb (by simp [isRCb])
  · intro hk
    refine ⟨Or.inl (Or.inl hk), ?_⟩
    obtain ⟨a, _, rfl⟩ := Finset.mem_image.mp hk
    rfl

lemma triUnion_filter_rz (R K C : Nat) :
    ((rcKeys R K ∪ rzKeys R C ∪ czKeys K C).filter (fun k => isRZb k = true))
    = rzKeys R C := by
  ext k
  simp only [Finset.mem_filter, Finset.mem_union]
  constructor
  · rintro ⟨(hk | hk) | hk, hb⟩
    · obtain ⟨a, _, rfl⟩ := Finset.mem_image.mp hk
      exact absurd hb (by simp [isRZb])
    · exact hk
    · obtain ⟨a, _, rfl⟩ := Finset.mem_image.mp hk
      exact absurd hb (by simp [isRZb])
  · intro hk
    refine ⟨Or.inl (Or.inr hk), ?_⟩
    obtain ⟨a, _, rfl⟩ := Finset.mem_image.mp hk
    rfl

lemma triUnion_filter_cz (R K C : Nat) :
    ((rcKeys R K ∪ rzKeys R C ∪ czKeys K C).filter (fun k => isCZb k = true))
    = czKeys K C := by
  ext k
  simp only [Finset.mem_filter, Finset.mem_union]
  constructor
  · rintro ⟨(hk | hk) | hk, hb⟩
    · obtain ⟨a, _, rfl⟩ := Finset.mem_image.mp hk
      exact absurd hb (by simp [isCZb])
    · obtain ⟨a, _, rfl⟩ := Finset.mem_image.mp hk
      exact absurd hb (by simp [isCZb])
    · exact hk
  · intro hk
    refine ⟨Or.inr hk, ?_⟩
    obtain ⟨a, _, rfl⟩ := Finset.mem_image.mp hk
    rfl

lemma length_flatMap_const {α β : Type} (l : List α) (f : α → List β) (m : Nat)
    (h : ∀ a ∈ l, (f a).length = m) : (l.flatMap f).length = l.length * m := by
  induction l with
  | nil => simp
  | cons a l ih =>
      rw [List.flatMap_cons, List.length_append, h a (by simp),
        ih (fun a ha => h a (by simp [ha])), List.length_cons,
        Nat.succ_mul, Nat.add_comm]

lemma triCellList_length (x : Mat3) :
    (triCellList x).length = x.contexts * (x.rows * x.cols) := by
  rw [triCellList,
    length_flatMap_const _ _ (x.rows * x.cols) (fun z _ => by
      rw [length_flatMap_const _ _ x.cols (fun i _ => by
        rw [List.length_map, List.length_range])]
      rw [List.length_range]),
    List.length_range]

/-- C5 amended: the generic (networkx) graph is simple, so the two-axis edge
count is `rows * cols`, while the three-axis per-cell edge triples collapse
across the third axis: for positive shape the total is
`rows * cols + rows * contexts + cols * contexts`, not
`3 * rows * cols * contexts`. -/
theorem C5_edge_counts :
    (∀ x : Mat2, (bicDenseToNetworkx x).edges.length = x.rows * x.cols)
    ∧ (∀ x : Mat3, 0 < x.contexts → 0 < x.rows → 0 < x.cols →
        (triDenseToNetworkx x).edges.length
        = x.rows * x.cols + x.rows * x.contexts + x.cols * x.contexts) := by
  constructor
  · intro x
    have h : (bicDenseToNetworkx x).edges
        = addWeightedEdgesFrom [] (bicEdgeList x) := rfl
    rw [h, nx_edges_length _ (bicEdgeList_asc x), bicKeys_toFinset, rcKeys_card]
  · intro x hC hR hK
    have h : (triDenseToNetworkx x).edges
        = addWeightedEdgesFrom [] (triEdgeList x) := rfl
    have hd1 : Disjoint
        (rcKeys x.rows x.cols ∪ rzKeys x.rows x.contexts)
        (czKeys x.cols x.contexts) :=
      Finset.disjoint_union_left.mpr
        ⟨rc_cz_disjoint x.rows x.cols x.contexts,
         rz_cz_disjoint x.rows x.cols x.contexts⟩
    rw [h, nx_edges_length _ (triEdgeList_asc x), triKeys_toFinset x hC hR hK,
      Finset.card_union_of_disjoint hd1,
      Finset.card_union_of_disjoint (rc_rz_disjoint x.rows x.cols x.contexts),
      rcKeys_card, rzKeys_card, czKeys_card]

/-- C5 witness: the amended edge counts at a concrete 2 by 3 tensor and a
concrete positive-shape 3-context, 10-row, 8-column tensor. -/
theorem C5_edge_counts_witness :
    (bicDenseToNetworkx mat2w).edges.length = mat2w.rows * mat2w.cols
    ∧ (0 < mat3s.contexts ∧ 0 < mat3s.rows ∧ 0 < mat3s.cols
        ∧ (triDenseToNetworkx mat3s).edges.length
          = mat3s.rows * mat3s.cols + mat3s.rows * mat3s.contexts
            + mat3s.cols * mat3s.contexts) :=
  ⟨C5_edge_counts.1 mat2w, by decide, by decide, by decide,
    C5_edge_counts.2 mat3s (by decide) (by decide) (by decide)⟩

lemma countP_range_map_zero {β : Type} (n : Nat) (g : Nat → β) (p : β → Bool)
    (h : ∀ i, p (g i) = false) : ((List.range n).map g).countP p = 0 := by
  rw [List.countP_map]
  exact List.countP_eq_zero.mpr (fun a _ => by simp [Function.comp, h a])

lemma countP_range_map_all {β : Type} (n : Nat) (g : Nat → β) (p : β → Bool)
    (h : ∀ i, p (g i) = true) : ((List.range n).map g).countP p = n := by
  rw [List.countP_map,
    List.countP_eq_length.mpr (fun a _ => by simp [Function.comp, h a]),
    List.length_range]

lemma tri_nodes_split (x : Mat3) :
    (triDenseToNetworkx x).nodes
    = ((List.range x.contexts).map
        (fun z => ((Node.ctx z, (0 : Int), 0) : Node × Int × Nat)))
      ++ ((List.range x.rows).map (fun i => (Node.row i, (0 : Int), 1)))
      ++ ((List.range x.cols).map (fun j => (Node.col j, (0 : Int), 2))) := rfl

/-- C6 amended: in the generic (networkx) backend the per-type node counts are
the axis sizes and the per-type edge counts are the products of the two
endpoint-type partition sizes; in the two-axis case this holds for both
backends; but in the tensor-graph (dgl) three-axis backend every edge type has
`rows * cols * contexts` edges - one per cell - rather than the product of its
endpoint partitions. -/
theorem C6_per_type_counts :
    (∀ x : Mat3, 0 < x.contexts → 0 < x.rows → 0 < x.cols →
      ((triDenseToNetworkx x).nodes.countP (fun nd => isRowN nd.1) = x.rows
      ∧ (triDenseToNetworkx x).nodes.countP (fun nd => isColN nd.1) = x.cols
      ∧ (triDenseToNetworkx x).nodes.countP (fun nd => isCtxN nd.1) = x.contexts
      ∧ (triDenseToNetworkx x).edges.countP (fun e => isRCb e.1)
          = x.rows * x.cols
      ∧ (triDenseToNetworkx x).edges.countP (fun e => isRZb e.1)
          = x.rows * x.contexts
      ∧ (triDenseToNetworkx x).edges.countP (fun e => isCZb e.1)
          = x.cols * x.contexts))
    ∧ (∀ x : Mat2, (bicDenseToNetworkx x).edges.countP (fun e => isRCb e.1)
        = x.rows * x.cols)
    ∧ (∀ x : Mat2, (bicDenseToDgl x).rcEdges.length = x.rows * x.cols)
    ∧ (∀ x : Mat3,
        (triDenseToDgl x).rcEdges.length = x.rows * x.cols * x.contexts
        ∧ (triDenseToDgl x).rzEdges.length = x.rows * x.cols * x.contexts
        ∧ (triDenseToDgl x).czEdges.length = x.rows * x.cols * x.contexts) := by
  refine ⟨?_, ?_, ?_, ?_⟩
  · intro x hC hR hK
    have he : (triDenseToNetworkx x).edges
        = addWeightedEdgesFrom [] (triEdgeList x) := rfl
    refine ⟨?_, ?_, ?_, ?_, ?_, ?_⟩
    · rw [tri_nodes_split, List.countP_append, List.countP_append,
        countP_range_map_zero _ _ _ (fun i => rfl),
        countP_range_map_all _ _ _ (fun i => rfl),
        countP_range_map_zero _ _ _ (fun i => rfl)]
      omega
    · rw [tri_nodes_split, List.countP_append, List.countP_append,
        countP_range_map_zero _ _ _ (fun i => rfl),
        countP_range_map_zero _ _ _ (fun i => rfl),
        countP_range_map_all _ _ _ (fun i => rfl)]
      omega
    · rw [tri_nodes_split, List.countP_append, List.countP_append,
        countP_range_map_all _ _ _ (fun i => rfl),
        countP_range_map_zero _ _ _ (fun i => rfl),
        countP_range_map_zero _ _ _ (fun i => rfl)]
      omega
    · rw [he, nx_edges_countP _ (triEdgeList_asc x) isRCb,
        triKeys_toFinset x hC hR hK, triUnion_filter_rc, rcKeys_card]
    · rw [he, nx_edges_countP _ (triEdgeList_asc x) isRZb,
        triKeys_toFinset x hC hR hK, triUnion_filter_rz, rzKeys_card]
    · rw [he, nx_edges_countP _ (triEdgeList_asc x) isCZb,
        triKeys_toFinset x hC hR hK, triUnion_filter_cz, czKeys_card]
  · intro x
    have he : (bicDenseToNetworkx x).edges
        = addWeightedEdgesFrom [] (bicEdgeList x) := rfl
    rw [he, nx_edges_countP _ (bicEdgeList_asc x) isRCb, bicKeys_toFinset,
      filter_rcKeys, rcKeys_card]
  · intro x
    have he : (bicDenseToDgl x).rcEdges
        = (List.range x.rows).flatMap (fun i =>
            (List.range x.cols).map (fun j => (i, j))) := rfl
    rw [he, length_flatMap_const _ _ x.cols (fun i _ => by
        rw [List.length_map, List.length_range]),
      List.length_range]
  · intro x
    have h1 : (triDenseToDgl x).rcEdges.length = (triCellList x).length :=
      List.length_map _ _
    have h2 : (triDenseToDgl x).rzEdges.length = (triCellList x).length :=
      List.length_map _ _
    have h3 : (triDenseToDgl x).czEdges.length = (triCellList x).length :=
      List.length_map _ _
    refine ⟨?_, ?_, ?_⟩
    · rw [h1, triCellList_length]
      ring
    · rw [h2, triCellList_length]
      ring
    · rw [h3, triCellList_length]
      ring

/-- C6 witness: the Scenario C instance, contexts 3, rows 10, columns 8, in
the generic backend: node counts 10, 8, 3 and edge counts 80, 30, 24. -/
theorem C6_per_type_counts_witness :
    0 < mat3s.contexts ∧ 0 < mat3s.rows ∧ 0 < mat3s.cols
    ∧ (triDenseToNetworkx mat3s).nodes.countP (fun nd => isRowN nd.1) = 10
    ∧ (triDenseToNetworkx mat3s).nodes.countP (fun nd => isColN nd.1) = 8
    ∧ (triDenseToNetworkx mat3s).nodes.countP (fun nd => isCtxN nd.1) = 3
    ∧ (triDenseToNetworkx mat3s).edges.countP (fun e => isRCb e.1) = 80
    ∧ (triDenseToNetworkx mat3s).edges.countP (fun e => isRZb e.1) = 30
    ∧ (triDenseToNetworkx mat3s).edges.countP (fun e => isCZb e.1) = 24 :=
  ⟨by decide, by decide, by decide,
    (C6_per_type_counts.1 mat3s (by decide) (by decide) (by decide)).1,
    (C6_per_type_counts.1 mat3s (by decide) (by decide) (by decide)).2.1,
    (C6_per_type_counts.1 mat3s (by decide) (by decide) (by decide)).2.2.1,
    (C6_per_type_counts.1 mat3s (by decide) (by decide) (by decide)).2.2.2.1,
    (C6_per_type_counts.1 mat3s (by decide) (by decide) (by decide)).2.2.2.2.1,
    (C6_per_type_counts.1 mat3s (by decide) (by decide) (by decide)).2.2.2.2.2⟩

/-- C9: in both graph backends, every node of every type is created with its
cluster attribute equal to 0: in the generic (networkx) backend every entry of
the node list carries cluster attribute 0, and in the tensor-graph (dgl)
backend every entry of each per-type cluster-data vector is 0. -/
theorem C9_cluster_attribute_zero :
    (∀ x : Mat2, ∀ nd ∈ (bicDenseToNetworkx x).nodes, nd.2.1 = 0)
    ∧ (∀ x : Mat3, ∀ nd ∈ (triDenseToNetworkx x).nodes, nd.2.1 = 0)
    ∧ (∀ x : Mat2, (∀ v ∈ (bicDenseToDgl x).rowClusterData, v = 0)
        ∧ (∀ v ∈ (bicDenseToDgl x).colClusterData, v = 0))
    ∧ (∀ x : Mat3, (∀ v ∈ (triDenseToDgl x).rowClusterData, v = 0)
        ∧ (∀ v ∈ (triDenseToDgl x).colClusterData, v = 0)
        ∧ (∀ v ∈ (triDenseToDgl x).ctxClusterData, v = 0)) := by
  refine ⟨?_, ?_, ?_, ?_⟩
  · intro x nd hnd
    have h : (bicDenseToNetworkx x).nodes
        = ((List.range x.rows).map
            (fun i => ((Node.row i, (0 : Int), 0) : Node × Int × Nat)))
          ++ ((List.range x.cols).map (fun j => (Node.col j, (0 : Int), 1))) :=
      rfl
    rw [h] at hnd
    rcases List.mem_append.mp hnd with h' | h' <;>
      · obtain ⟨i, _, rfl⟩ := List.mem_map.mp h'
        rfl
  · intro x nd hnd
    rw [tri_nodes_split] at hnd
    rcases List.mem_append.mp hnd with h' | h'
    · rcases List.mem_append.mp h' with h'' | h'' <;>
        · obtain ⟨i, _, rfl⟩ := List.mem_map.mp h''
          rfl
    · obtain ⟨i, _, rfl⟩ := List.mem_map.mp h'
      rfl
  · intro x
    exact ⟨fun v hv => List.eq_of_mem_replicate hv,
      fun v hv => List.eq_of_mem_replicate hv⟩
  · intro x
    exact ⟨fun v hv => List.eq_of_mem_replicate hv,
      fun v hv => List.eq_of_mem_replicate hv,
      fun v hv => List.eq_of_mem_replicate hv⟩

/-- C9 witness: a concrete node of a concrete generic graph, with its cluster
attribute shown to be 0 by the theorem. -/
theorem C9_cluster_attribute_zero_witness :
    ((Node.row 0, (0 : Int), (0 : Nat)) ∈ (bicDenseToNetworkx mat2w).nodes)
    ∧ (((Node.row 0, (0 : Int), (0 : Nat)) : Node × Int × Nat)).2.1 = 0 :=
  ⟨by decide,
    C9_cluster_attribute_zero.1 mat2w (Node.row 0, (0 : Int), (0 : Nat))
      (by decide)⟩
